import Mathlib

/-!
Verification of the streaming post-generation client of the Chameleon
repository.  The definitions below are a shallow embedding of the
client page (src/unnamed/part_001): the platform-selection handlers,
the streaming chunk/line buffering loop, the streaming-event dispatch,
the fallback to the blocking endpoint, and the request-building logic
of `handleStart`/`startPostGeneration`.  Server-side components that
are not part of the repository snapshot (the pipeline orchestrator and
topic extractor) are modelled from the specification where a claim
needs them; those definitions say so in their doc comments.

JavaScript conventions are embedded explicitly: optional JSON fields
become `Option`, JS truthiness of a string/number field becomes a test
against `""`/`0`, and `a || b` becomes `jstrOr`/`jnumOr`.
-/

set_option maxHeartbeats 1000000

namespace Chameleon

/-! ## Data model (from src/unnamed/part_001) -/

inductive Platform
  | twitter
  | linkedin
deriving DecidableEq, Repr

/-- The string key a `Platform` value denotes (TS union "twitter" | "linkedin"). -/
def platformKey : Platform → String
  | .twitter => "twitter"
  | .linkedin => "linkedin"

/-- interface PlatformPost (JSON numbers are embedded as rationals). -/
structure PlatformPost where
  post_content : String
  topic_id : ℚ
  topic_name : String
  primary_emotion : String
  content_strategy : String
  processing_time : ℚ
deriving DecidableEq, Repr

/-- The object-spread update `{ ...obj, [key]: v }` on a string-keyed map. -/
def updateKey (f : String → List PlatformPost) (k : String)
    (v : List PlatformPost) : String → List PlatformPost :=
  fun key => if key = k then v else f key

/-- JS truthiness of an optional string field: absent and `""` are falsy. -/
def truthyStr : Option String → Bool
  | none => false
  | some s => s != ""

/-- JS `v || d` for an optional string field. -/
def jstrOr : Option String → String → String
  | none, d => d
  | some s, d => if s = "" then d else s

/-- JS `v || d` for an optional numeric field (`0` is falsy). -/
def jnumOr : Option ℚ → ℚ → ℚ
  | none, d => d
  | some q, d => if q = 0 then d else q

/-- The `post_progress` object carried by some post frames. -/
structure PostProgress where
  completed : ℕ
  total : ℕ
deriving DecidableEq, Repr

/-- A parsed streaming data frame: the JSON object handed to
`handleStreamingEvent` after `JSON.parse`.  Absent fields are `none`. -/
structure EventData where
  post_content : Option String := none
  message : Option String := none
  error : Option String := none
  total_processing_time : Option ℚ := none
  progress : Option ℚ := none
  post_progress : Option PostProgress := none
  platform : Option String := none
  topic_id : Option ℚ := none
  topic_name : Option String := none
  primary_emotion : Option String := none
  content_strategy : Option String := none
  processing_time : Option ℚ := none
deriving DecidableEq, Repr

/-- The React state of the page that the claims are about.
`platformPosts` is keyed by strings because the code indexes the
object with a dynamically computed key (`eventData.platform`); the
initial value `{ twitter: [], linkedin: [] }` is the constant-empty
map. -/
structure ClientState where
  platformPosts : String → List PlatformPost
  contentBlocks : List String
  streamingStatus : String
  pipelineProgress : ℚ
  isProcessing : Bool
  isTranscriptLoading : Bool
  actualTranscript : String
  isStarted : Bool

/-- The platform post record built from a post frame, with the `|| default`
fallbacks of the source. -/
def newPostOf (e : EventData) : PlatformPost :=
  { post_content := (e.post_content).getD ""
    topic_id := jnumOr e.topic_id 0
    topic_name := jstrOr e.topic_name ""
    primary_emotion := jstrOr e.primary_emotion ""
    content_strategy := jstrOr e.content_strategy ""
    processing_time := jnumOr e.processing_time 0 }

/-- `(eventData.platform || 'twitter')`. -/
def postPlatformKey (e : EventData) : String := jstrOr e.platform "twitter"

/-- The status line shown for `post_progress`. -/
def postProgressStatus (pp : PostProgress) : String :=
  "Generated " ++ toString pp.completed ++ "/" ++ toString pp.total ++ " posts"

/-- The data-frame part of `handleStreamingEvent`: the if/else-if chain that
inspects the parsed object and updates the client state. -/
def handleEventData (st : ClientState) (e : EventData) : ClientState :=
  if truthyStr e.post_content then
    let key := postPlatformKey e
    let st1 := { st with
      platformPosts :=
        updateKey st.platformPosts key (st.platformPosts key ++ [newPostOf e]) }
    let st2 := match e.progress with
      | some p => { st1 with pipelineProgress := p }
      | none => st1
    match e.post_progress with
      | some pp => { st2 with streamingStatus := postProgressStatus pp }
      | none => st2
  else if truthyStr e.message then
    let st1 := { st with streamingStatus := (e.message).getD "" }
    match e.progress with
      | some p => { st1 with pipelineProgress := p }
      | none => st1
  else if truthyStr e.error then
    { st with
      contentBlocks := ["Error: " ++ (e.error).getD ""]
      streamingStatus := "Error: " ++ (e.error).getD ""
      isProcessing := false }
  else if (e.total_processing_time).isSome then
    { st with
      streamingStatus := "All posts generated successfully!"
      pipelineProgress := 100
      isProcessing := false }
  else st

/-- The four frame kinds distinguished by the dispatch chain (plus a
catch-all for frames none of the branches recognises). -/
inductive FrameKind
  | post
  | status
  | error
  | complete
  | unhandled
deriving DecidableEq, Repr

/-- Which branch of `handleEventData`'s chain a parsed frame takes. -/
def classifyEventData (e : EventData) : FrameKind :=
  if truthyStr e.post_content then .post
  else if truthyStr e.message then .status
  else if truthyStr e.error then .error
  else if (e.total_processing_time).isSome then .complete
  else .unhandled

/-! ## Platform selection (handlePlatformToggle) -/

/-- The slice of state `handlePlatformToggle` touches. -/
structure PlatformSelState where
  selectedPlatforms : List Platform
  activePlatformTab : Platform
deriving DecidableEq, Repr

/-- `handlePlatformToggle` from the source: toggling off the last
remaining platform returns the previous list unchanged; removing the
active tab's platform moves the tab to the first remaining one; adding
to an empty selection makes the added platform active. -/
def handlePlatformToggle (st : PlatformSelState) (platform : Platform) : PlatformSelState :=
  let prev := st.selectedPlatforms
  if platform ∈ prev then
    if prev.length = 1 then st
    else
      let newPlatforms := prev.filter (fun p => p != platform)
      { selectedPlatforms := newPlatforms
        activePlatformTab :=
          match newPlatforms with
          | [] => st.activePlatformTab
          | q :: _ => if platform = st.activePlatformTab then q else st.activePlatformTab }
  else
    { selectedPlatforms := prev ++ [platform]
      activePlatformTab := if prev = [] then platform else st.activePlatformTab }

/-- `useState<Platform[]>(['twitter'])` and `useState<Platform>('twitter')`. -/
def initialSelState : PlatformSelState :=
  { selectedPlatforms := [.twitter], activePlatformTab := .twitter }

/-! ## Request building (startPostGeneration) and network calls -/

/-- The request body sent to the generation endpoints. -/
structure RequestBody where
  text : String
  target_platforms : List String
  original_url : Option String
deriving DecidableEq, Repr

/-- The body built by `startPostGeneration`:
`text = transcriptText || content`, the selected platforms, and
`original_url` only when a truthy YouTube URL was supplied. -/
def buildRequestBody (selected : List Platform) (content : String)
    (transcriptText : Option String) (youtubeUrl : Option String) : RequestBody :=
  { text := jstrOr transcriptText content
    target_platforms := selected.map platformKey
    original_url :=
      match youtubeUrl with
      | none => none
      | some u => if u = "" then none else some u }

/-- The network requests the page can issue, in issue order. -/
inductive NetworkCall
  | streamPosts (body : RequestBody)
  | generatePosts (body : RequestBody)
  | youtubeProcess (url : String)
deriving DecidableEq, Repr

/-! ## The chunk/line buffering loop (processChunk)

The decoded text of the response stream is embedded as `List Char`
(the `TextDecoder` with `stream: true` guarantees that the
concatenation of the decoded chunks is the decoded concatenation, so
the byte level adds nothing to the line-splitting logic). -/

/-- `buffer.split('\n')` followed by `lines.pop()`: the complete
(newline-terminated) lines, and the trailing segment after the last
newline. -/
def splitNl : List Char → List (List Char) × List Char
  | [] => ([], [])
  | c :: cs =>
    let r := splitNl cs
    if c = '\n' then ([] :: r.1, r.2)
    else
      match r.1 with
      | [] => ([], c :: r.2)
      | l :: ls => ((c :: l) :: ls, r.2)

/-- `line.startsWith('event: ') || line.startsWith('data: ')`. -/
def isFrameLine (l : List Char) : Bool :=
  (("event: ").toList).isPrefixOf l || (("data: ").toList).isPrefixOf l

/-- The state threaded through `processChunk`: the carry buffer and the
lines dispatched to `handleStreamingEvent` so far, in order. -/
structure StreamState where
  buffer : List Char
  dispatched : List (List Char)
deriving DecidableEq, Repr

/-- One iteration of `processChunk` on a decoded chunk: append the
chunk to the buffer, split on newlines, keep the last (incomplete)
segment as the new buffer, and dispatch every complete line that
starts with `event: ` or `data: `. -/
def processChunkStep (st : StreamState) (chunk : List Char) : StreamState :=
  let r := splitNl (st.buffer ++ chunk)
  { buffer := r.2, dispatched := st.dispatched ++ r.1.filter isFrameLine }

/-- Reading the whole stream: fold over the decoded chunks starting
from an empty buffer (on `done` the loop just returns, so the final
buffer is dropped). -/
def processStream (chunks : List (List Char)) : StreamState :=
  chunks.foldl processChunkStep { buffer := [], dispatched := [] }

/-! ## Streaming call, fallback, handleStart -/

/-- The aggregated response of the blocking endpoint.  `platform_posts`
is `none` when the field is absent/null (falsy). -/
structure APIResponse where
  success : Bool
  platform_posts : Option (String → List PlatformPost)
  error : Option String := none

/-- How the streaming fetch can turn out, as observed by the client:
the promise rejects, the response is not ok, no body reader is
available, or a stream of parsed data frames is delivered. -/
inductive StreamOutcome
  | fetchReject
  | httpNotOk (status : ℕ)
  | noReader
  | ok (frames : List EventData)

/-- The three setup-failure outcomes all reach the same `catch`. -/
def streamSetupFails : StreamOutcome → Bool
  | .fetchReject => true
  | .httpNotOk _ => true
  | .noReader => true
  | .ok _ => false

/-- The legacy `contentBlocks` rebuilt from posts grouped by platform:
for each selected platform, the contents of its posts, in order. -/
def allPostContents (selected : List Platform) (pp : String → List PlatformPost) :
    List String :=
  (selected.map (fun p => (pp (platformKey p)).map PlatformPost.post_content)).flatten

/-- `fallbackToRegularAPI`: POST the same body to the blocking endpoint;
on `success && platform_posts` store the grouped posts and rebuild the
legacy blocks, otherwise set the corresponding error message.
`resp = Except.error ()` covers both a rejected fetch and `!response.ok`. -/
def fallbackToRegularAPI (body : RequestBody) (selected : List Platform)
    (st : ClientState) (resp : Except Unit APIResponse) :
    ClientState × List NetworkCall :=
  let st1 :=
    match resp with
    | .error _ =>
      { st with contentBlocks := ["Error: Both streaming and fallback APIs failed."]
                isProcessing := false }
    | .ok data =>
      match data.platform_posts, data.success with
      | some pp, true =>
        { st with platformPosts := pp
                  contentBlocks := allPostContents selected pp
                  isProcessing := false }
      | _, _ =>
        { st with contentBlocks := ["Error: Failed to generate posts using fallback API."]
                  isProcessing := false }
  (st1, [NetworkCall.generatePosts body])

/-- The state reset done at the top of `startStreamingPostGeneration`. -/
def streamResetState (st : ClientState) : ClientState :=
  { st with platformPosts := fun _ => []
            streamingStatus := ""
            pipelineProgress := 0 }

/-- `startStreamingPostGeneration`: reset, issue the streaming POST;
on success fold the delivered frames through the event handler (the
`done` branch clears `isProcessing`); on any setup failure take the
`catch`: clear the posts, set the fallback notice, and invoke the
blocking endpoint with the same body. -/
def startStreamingPostGeneration (body : RequestBody) (selected : List Platform)
    (st : ClientState) (outcome : StreamOutcome)
    (fallbackResp : Except Unit APIResponse) : ClientState × List NetworkCall :=
  let st0 := streamResetState st
  match outcome with
  | .ok frames =>
    let stF := List.foldl handleEventData st0 frames
    ({ stF with isProcessing := false }, [NetworkCall.streamPosts body])
  | _ =>
    let stErr := { st0 with
      platformPosts := fun _ => []
      contentBlocks :=
        ["Error: Failed to establish streaming connection. Falling back to regular API..."] }
    let r := fallbackToRegularAPI body selected stErr fallbackResp
    (r.1, NetworkCall.streamPosts body :: r.2)

/-- `startPostGeneration`: mark processing, clear posts and legacy
blocks, build the body from `transcriptText || content` and the
selected platforms, and start the streaming call. -/
def startPostGeneration (selected : List Platform) (content : String)
    (transcriptText : Option String) (youtubeUrl : Option String)
    (st : ClientState) (outcome : StreamOutcome)
    (fallbackResp : Except Unit APIResponse) : ClientState × List NetworkCall :=
  let st0 := { st with isProcessing := true
                       platformPosts := fun _ => []
                       contentBlocks := [] }
  startStreamingPostGeneration
    (buildRequestBody selected content transcriptText youtubeUrl)
    selected st0 outcome fallbackResp

/-- The JS test `!content.trim()`: a string trims to the empty string
exactly when every character is whitespace. -/
def isBlank (s : String) : Bool :=
  s.toList.all fun c => c.isWhitespace

/-- The response of the YouTube processing endpoint. -/
structure YoutubeResponse where
  success : Bool
  transcript : Option String := none
  error_message : Option String := none

inductive ContentType
  | text
  | youtube
deriving DecidableEq, Repr

/-- `handleStart`.  `extractId` is the result of `extractYouTubeId`
applied to the current content (the regex is treated as an oracle:
`none` = not a valid YouTube URL).  `ytResp` is the outcome of the
YouTube processing call; it is consulted only when that call is made. -/
def handleStart (contentType : ContentType) (content : String)
    (selected : List Platform) (extractId : Option String)
    (ytResp : Except Unit YoutubeResponse) (outcome : StreamOutcome)
    (fallbackResp : Except Unit APIResponse) (st : ClientState) :
    ClientState × List NetworkCall :=
  let st := { st with isStarted := true }
  match contentType with
  | .youtube =>
    if isBlank content ∨ extractId = none then
      ({ st with contentBlocks := ["Error: Please enter a valid YouTube URL."]
                 isProcessing := false }, [])
    else
      let st := { st with isTranscriptLoading := true }
      match ytResp with
      | .error _ =>
        ({ st with
            isTranscriptLoading := false
            contentBlocks :=
              ["Error: Unable to process YouTube video. Please check the URL and try again."]
            isProcessing := false }, [NetworkCall.youtubeProcess content])
      | .ok data =>
        if data.success then
          if truthyStr data.transcript then
            let st := { st with actualTranscript := (data.transcript).getD ""
                                isTranscriptLoading := false }
            let r := startPostGeneration selected content data.transcript (some content)
                       st outcome fallbackResp
            (r.1, NetworkCall.youtubeProcess content :: r.2)
          else
            ({ st with
                actualTranscript :=
                  "Transcription failed. This might be due to a large file size or API timeout."
                isTranscriptLoading := false
                contentBlocks :=
                  ["Error: Video was downloaded successfully, but transcription failed. This might be due to a large file size or API timeout. Please try with a shorter video."]
                isProcessing := false }, [NetworkCall.youtubeProcess content])
        else
          ({ st with
              isTranscriptLoading := false
              contentBlocks :=
                ["Error: Failed to process YouTube video. " ++
                  jstrOr data.error_message "Please try again."]
              isProcessing := false }, [NetworkCall.youtubeProcess content])
  | .text =>
    if isBlank content then
      ({ st with contentBlocks := ["Error: Please enter some text to generate posts from."]
                 isProcessing := false }, [])
    else
      startPostGeneration selected content none none st outcome fallbackResp

/-! ## Post editing (handleCloseExpanded) -/

/-- The post-updating part of `handleCloseExpanded`: when a post is
expanded at `(platform, index)` and that index exists, replace that
post's `post_content` with the edited text; otherwise the stored posts
are unchanged. -/
def closeExpandedPosts (platformPosts : String → List PlatformPost)
    (expandedPost : Option (Platform × ℕ)) (editingContent : String) :
    String → List PlatformPost :=
  match expandedPost with
  | none => platformPosts
  | some (p, index) =>
    let key := platformKey p
    let posts := platformPosts key
    if h : index < posts.length then
      updateKey platformPosts key
        (posts.set index { posts.get ⟨index, h⟩ with post_content := editingContent })
    else platformPosts

/-! ## Spec-modelled server side (pipeline orchestrator / topic extractor)

The server of this repository is not part of the snapshot under `src/`
(only the client is).  The definitions in this section are therefore
modelled from the specification, as their doc comments state, and the
claims that need them are settled against these models. -/

/-- A topic as produced by the extractor. -/
structure Topic where
  id : ℕ
  name : String
  excerpt : String
deriving DecidableEq, Repr

/-- Modelled from the spec: the Topic Extractor assigns topic IDs
sequentially starting at 1, in extraction order (spec §4.1). -/
def assignTopicIds (raw : List (String × String)) : List Topic :=
  (List.range raw.length).zip raw |>.map fun kr => ⟨kr.1 + 1, kr.2.1, kr.2.2⟩

/-- A status frame as the client parses it. -/
def statusFrame (msg : String) (prog : ℕ) : EventData :=
  { message := some msg, progress := some (prog : ℚ) }

/-- A post frame as the client parses it. -/
def orchPostFrame (t : Topic) (p : Platform) (content : String) (prog : ℕ) : EventData :=
  { post_content := some content
    platform := some (platformKey p)
    topic_id := some (t.id : ℚ)
    topic_name := some t.name
    progress := some (prog : ℚ) }

/-- The terminal frame carrying the total elapsed time. -/
def completeFrame (elapsed : ℚ) : EventData :=
  { total_processing_time := some elapsed }

/-- Modelled from the spec: one post frame per (topic, platform) pair,
in pair order, the k-th completed pair carrying
`progress = 25 + ⌊75·k/total⌋` (spec §4.4). -/
def orchPostFrames (pairs : List (Topic × Platform))
    (gen : Topic → Platform → String) (k total : ℕ) : List EventData :=
  match pairs with
  | [] => []
  | (t, p) :: rest =>
    orchPostFrame t p (gen t p) (25 + 75 * (k + 1) / total) ::
      orchPostFrames rest gen (k + 1) total

/-- Modelled from the spec: the full frame sequence of a successful run
of the Pipeline Orchestrator (server side, not under `src/`) — a status
frame in the 0–25% extraction band, one post frame per (topic,
platform) pair iterated topic-major, and a terminal completion frame
(spec §4.4/§4.5).  `gen` stands for the Platform Post Generator's
output for a pair. -/
def orchFrames (topics : List Topic) (platforms : List Platform)
    (gen : Topic → Platform → String) (elapsed : ℚ) : List EventData :=
  let pairs := topics.flatMap fun t => platforms.map fun p => (t, p)
  statusFrame "Extracting topics from input text" 10 ::
    orchPostFrames pairs gen 0 pairs.length ++ [completeFrame elapsed]

/-! ## Progress bookkeeping for the monotonicity claim -/

/-- The effect a frame has on `pipelineProgress`: `some p` when the
branch taken overwrites the progress with `p`, `none` when it leaves
it alone.  This is a projection of `handleEventData`. -/
def progressUpdate (e : EventData) : Option ℚ :=
  if truthyStr e.post_content then e.progress
  else if truthyStr e.message then e.progress
  else if truthyStr e.error then none
  else if (e.total_processing_time).isSome then some 100
  else none

/-- The successive values of `pipelineProgress` as the client processes
a frame sequence (including the value before the first frame). -/
def progTrace (st : ClientState) (frames : List EventData) : List ℚ :=
  (frames.scanl handleEventData st).map ClientState.pipelineProgress

/-- A concrete client state used to instantiate theorems. -/
def emptyClientState : ClientState :=
  { platformPosts := fun _ => []
    contentBlocks := []
    streamingStatus := ""
    pipelineProgress := 0
    isProcessing := false
    isTranscriptLoading := false
    actualTranscript := ""
    isStarted := false }

/-! ## Helper lemmas -/

lemma toggle_keeps (st : PlatformSelState) (p : Platform)
    (hnd : st.selectedPlatforms.Nodup) (hne : st.selectedPlatforms ≠ []) :
    (handlePlatformToggle st p).selectedPlatforms.Nodup ∧
    (handlePlatformToggle st p).selectedPlatforms ≠ [] := by
  unfold handlePlatformToggle
  by_cases hc : p ∈ st.selectedPlatforms
  · by_cases hl : st.selectedPlatforms.length = 1
    · simpa [hc, hl] using ⟨hnd, hne⟩
    · have h2 : ∃ q ∈ st.selectedPlatforms, q ≠ p := by
        rcases hlist : st.selectedPlatforms with _ | ⟨a, _ | ⟨b, t⟩⟩
        · exact absurd hlist hne
        · exact absurd (by simp [hlist]) hl
        · rw [hlist] at hnd
          have hab : a ≠ b := by
            intro hab
            exact (List.nodup_cons.mp hnd).1 (hab ▸ List.mem_cons_self b t)
          by_cases hap : a = p
          · exact ⟨b, by simp, fun hbp => hab (hap.trans hbp.symm)⟩
          · exact ⟨a, by simp, hap⟩
      obtain ⟨q, hq, hqp⟩ := h2
      simpa [hc, hl] using ⟨hnd.filter _, ⟨q, hq, hqp⟩⟩
  · have hnodup : (st.selectedPlatforms ++ [p]).Nodup := by
      rw [List.nodup_append]
      refine ⟨hnd, List.nodup_singleton p, ?_⟩
      intro a ha hap
      rw [List.mem_singleton] at hap
      exact hc (hap ▸ ha)
    simp [hc, hnodup]

lemma foldl_toggle_invariant (toggles : List Platform) :
    ∀ st : PlatformSelState, st.selectedPlatforms.Nodup → st.selectedPlatforms ≠ [] →
      (List.foldl handlePlatformToggle st toggles).selectedPlatforms.Nodup ∧
      (List.foldl handlePlatformToggle st toggles).selectedPlatforms ≠ [] := by
  induction toggles with
  | nil => exact fun st h1 h2 => ⟨h1, h2⟩
  | cons p ps ih =>
    intro st h1 h2
    have h := toggle_keeps st p h1 h2
    exact ih _ h.1 h.2

/-! ## Claims -/

/-- Claim C6: starting from the initial selection `['twitter']`, every
sequence of `handlePlatformToggle` calls keeps the selected platform
set a non-empty subset of {twitter, linkedin} (toggling off the last
remaining platform is a no-op), so every request body built by
`startPostGeneration` has a non-empty `target_platforms` list. -/
theorem c6_platforms_nonempty (toggles : List Platform) (content : String)
    (transcriptText youtubeUrl : Option String) :
    (List.foldl handlePlatformToggle initialSelState toggles).selectedPlatforms ≠ [] ∧
    (∀ p ∈ (List.foldl handlePlatformToggle initialSelState toggles).selectedPlatforms,
       p ∈ [Platform.twitter, Platform.linkedin]) ∧
    (buildRequestBody
        (List.foldl handlePlatformToggle initialSelState toggles).selectedPlatforms
        content transcriptText youtubeUrl).target_platforms ≠ [] := by
  have h := foldl_toggle_invariant toggles initialSelState
    (by simp [initialSelState]) (by simp [initialSelState])
  refine ⟨h.2, ?_, ?_⟩
  · intro p _
    cases p <;> simp
  · simp only [buildRequestBody, ne_eq, List.map_eq_nil_iff]
    exact h.2

/-- Witness for C6 at a concrete toggle sequence. -/
theorem c6_platforms_nonempty_witness :
    (List.foldl handlePlatformToggle initialSelState
        [Platform.linkedin, Platform.twitter]).selectedPlatforms ≠ [] ∧
    (∀ p ∈ (List.foldl handlePlatformToggle initialSelState
        [Platform.linkedin, Platform.twitter]).selectedPlatforms,
       p ∈ [Platform.twitter, Platform.linkedin]) ∧
    (buildRequestBody
        (List.foldl handlePlatformToggle initialSelState
          [Platform.linkedin, Platform.twitter]).selectedPlatforms
        "hello" none none).target_platforms ≠ [] :=
  c6_platforms_nonempty [Platform.linkedin, Platform.twitter] "hello" none none

/-- Claim C7: in text mode, content that is empty after trimming makes
`handleStart` set a single validation error and return with zero
network calls. -/
theorem c7_empty_text_no_calls (content : String) (selected : List Platform)
    (extractId : Option String) (ytResp : Except Unit YoutubeResponse)
    (outcome : StreamOutcome) (fallbackResp : Except Unit APIResponse)
    (st : ClientState) (h : isBlank content = true) :
    (handleStart .text content selected extractId ytResp outcome fallbackResp st).2 = [] ∧
    (handleStart .text content selected extractId ytResp outcome fallbackResp
        st).1.contentBlocks =
      ["Error: Please enter some text to generate posts from."] ∧
    ((handleStart .text content selected extractId ytResp outcome fallbackResp
        st).1.contentBlocks).length = 1 := by
  simp [handleStart, h]

/-- Witness for C7: empty text input makes no calls and one error. -/
theorem c7_empty_text_no_calls_witness :
    isBlank "" = true ∧
    (handleStart .text "" [Platform.twitter] none (.error ()) .fetchReject (.error ())
        emptyClientState).2 = [] ∧
    (handleStart .text "" [Platform.twitter] none (.error ()) .fetchReject (.error ())
        emptyClientState).1.contentBlocks =
      ["Error: Please enter some text to generate posts from."] := by
  have h := c7_empty_text_no_calls "" [Platform.twitter] none (.error ()) .fetchReject
    (.error ()) emptyClientState (by decide)
  exact ⟨by decide, h.1, h.2.1⟩

/-- Claim C10: a post frame whose `platform` field is absent or falsy is
assigned to the primary platform `'twitter'` rather than rejected, and
missing `topic_id`, `topic_name`, `primary_emotion`, `content_strategy`
and `processing_time` fields default to `0`, `""`, `""`, `""` and `0`. -/
theorem c10_post_defaults (st : ClientState) (e : EventData)
    (hp : truthyStr e.post_content = true)
    (hplat : e.platform = none ∨ e.platform = some "") :
    (handleEventData st e).platformPosts "twitter" =
      st.platformPosts "twitter" ++ [newPostOf e] ∧
    (e.topic_id = none → (newPostOf e).topic_id = 0) ∧
    (e.topic_name = none → (newPostOf e).topic_name = "") ∧
    (e.primary_emotion = none → (newPostOf e).primary_emotion = "") ∧
    (e.content_strategy = none → (newPostOf e).content_strategy = "") ∧
    (e.processing_time = none → (newPostOf e).processing_time = 0) := by
  have hkey : postPlatformKey e = "twitter" := by
    rcases hplat with h | h <;> simp [postPlatformKey, jstrOr, h]
  refine ⟨?_, ?_, ?_, ?_, ?_, ?_⟩
  · unfold handleEventData
    rw [if_pos hp]
    cases e.progress <;> cases e.post_progress <;>
      simp [hkey, updateKey]
  all_goals intro h
  all_goals simp [newPostOf, jnumOr, jstrOr, h]

/-- Witness for C10 at a frame with only `post_content` present. -/
theorem c10_post_defaults_witness :
    truthyStr (EventData.post_content { post_content := some "hi" }) = true ∧
    (handleEventData emptyClientState { post_content := some "hi" }).platformPosts "twitter" =
      [newPostOf { post_content := some "hi" }] ∧
    (newPostOf { post_content := some "hi" }).topic_id = 0 ∧
    (newPostOf { post_content := some "hi" }).topic_name = "" ∧
    (newPostOf { post_content := some "hi" }).primary_emotion = "" ∧
    (newPostOf { post_content := some "hi" }).content_strategy = "" ∧
    (newPostOf { post_content := some "hi" }).processing_time = 0 := by
  have h := c10_post_defaults emptyClientState { post_content := some "hi" }
    (by decide) (Or.inl rfl)
  exact ⟨by decide, by simpa [emptyClientState] using h.1, h.2.1 rfl, h.2.2.1 rfl,
    h.2.2.2.1 rfl, h.2.2.2.2.1 rfl, h.2.2.2.2.2 rfl⟩

/-- Claim C4: a parsed data frame is classified by testing field
presence in the fixed priority order `post_content`, `message`,
`error`, `total_processing_time` (truthiness for the first three, mere
definedness for the last); exactly the first branch whose field is
present is taken, so a frame carrying both `post_content` and `error`
is handled as a post frame and its `error` field is ignored. -/
theorem c4_dispatch_priority (st : ClientState) (e : EventData) :
    (truthyStr e.post_content = true → classifyEventData e = .post) ∧
    (truthyStr e.post_content = false → truthyStr e.message = true →
      classifyEventData e = .status) ∧
    (truthyStr e.post_content = false → truthyStr e.message = false →
      truthyStr e.error = true → classifyEventData e = .error) ∧
    (truthyStr e.post_content = false → truthyStr e.message = false →
      truthyStr e.error = false → (e.total_processing_time).isSome = true →
      classifyEventData e = .complete) ∧
    (truthyStr e.post_content = false → truthyStr e.message = false →
      truthyStr e.error = false → (e.total_processing_time).isSome = false →
      classifyEventData e = .unhandled) ∧
    (truthyStr e.post_content = true → truthyStr e.error = true →
      classifyEventData e = .post ∧
      (handleEventData st e).platformPosts (postPlatformKey e) =
        st.platformPosts (postPlatformKey e) ++ [newPostOf e] ∧
      (handleEventData st e).contentBlocks = st.contentBlocks ∧
      (handleEventData st e).isProcessing = st.isProcessing) := by
  refine ⟨?_, ?_, ?_, ?_, ?_, ?_⟩
  · intro h1
    simp [classifyEventData, h1]
  · intro h1 h2
    simp [classifyEventData, h1, h2]
  · intro h1 h2 h3
    simp [classifyEventData, h1, h2, h3]
  · intro h1 h2 h3 h4
    simp [classifyEventData, h1, h2, h3, h4]
  · intro h1 h2 h3 h4
    simp [classifyEventData, h1, h2, h3, h4]
  · intro h1 h3
    refine ⟨by simp [classifyEventData, h1], ?_, ?_, ?_⟩ <;>
      · unfold handleEventData
        rw [if_pos h1]
        cases e.progress <;> cases e.post_progress <;>
          simp [updateKey]

/-- Witness for C4 at a frame carrying both `post_content` and `error`. -/
theorem c4_dispatch_priority_witness :
    truthyStr (EventData.post_content
      { post_content := some "hi", error := some "boom" }) = true ∧
    truthyStr (EventData.error
      { post_content := some "hi", error := some "boom" }) = true ∧
    classifyEventData { post_content := some "hi", error := some "boom" } = .post ∧
    (handleEventData emptyClientState
        { post_content := some "hi", error := some "boom" }).contentBlocks =
      emptyClientState.contentBlocks := by
  have h := (c4_dispatch_priority emptyClientState
    { post_content := some "hi", error := some "boom" }).2.2.2.2.2 (by decide) (by decide)
  exact ⟨by decide, by decide, h.1, h.2.2.1⟩

/-- Claim C9: closing the expanded editor edits only the selected post:
with a post expanded at `(platform, index)`, only that post's
`post_content` is replaced by the edited text; every other stored
post, every post under other keys, and every other field of the edited
post are unchanged; with nothing expanded the stored posts are
unchanged. -/
theorem c9_edit_confined (pp : String → List PlatformPost) (p : Platform) (i : ℕ)
    (ec : String) (h : i < (pp (platformKey p)).length) :
    closeExpandedPosts pp none ec = pp ∧
    (∀ key, key ≠ platformKey p →
      closeExpandedPosts pp (some (p, i)) ec key = pp key) ∧
    (closeExpandedPosts pp (some (p, i)) ec (platformKey p)).length =
      (pp (platformKey p)).length ∧
    (∀ j, j ≠ i →
      (closeExpandedPosts pp (some (p, i)) ec (platformKey p))[j]? =
        (pp (platformKey p))[j]?) ∧
    (closeExpandedPosts pp (some (p, i)) ec (platformKey p))[i]? =
      some { (pp (platformKey p)).get ⟨i, h⟩ with post_content := ec } ∧
    ((closeExpandedPosts pp (some (p, i)) ec (platformKey p))[i]?).map
        PlatformPost.topic_id = ((pp (platformKey p))[i]?).map PlatformPost.topic_id ∧
    ((closeExpandedPosts pp (some (p, i)) ec (platformKey p))[i]?).map
        PlatformPost.topic_name = ((pp (platformKey p))[i]?).map PlatformPost.topic_name ∧
    ((closeExpandedPosts pp (some (p, i)) ec (platformKey p))[i]?).map
        PlatformPost.primary_emotion =
      ((pp (platformKey p))[i]?).map PlatformPost.primary_emotion ∧
    ((closeExpandedPosts pp (some (p, i)) ec (platformKey p))[i]?).map
        PlatformPost.content_strategy =
      ((pp (platformKey p))[i]?).map PlatformPost.content_strategy ∧
    ((closeExpandedPosts pp (some (p, i)) ec (platformKey p))[i]?).map
        PlatformPost.processing_time =
      ((pp (platformKey p))[i]?).map PlatformPost.processing_time := by
  have hset : closeExpandedPosts pp (some (p, i)) ec =
      updateKey pp (platformKey p)
        ((pp (platformKey p)).set i
          { (pp (platformKey p)).get ⟨i, h⟩ with post_content := ec }) := by
    simp [closeExpandedPosts, h]
  have hgverbose : (pp (platformKey p))[i]? = some ((pp (platformKey p)).get ⟨i, h⟩) := by
    rw [List.getElem?_eq_getElem h]
    simp
  have hati : (closeExpandedPosts pp (some (p, i)) ec (platformKey p))[i]? =
      some { (pp (platformKey p)).get ⟨i, h⟩ with post_content := ec } := by
    rw [hset]
    simp only [updateKey, if_pos rfl]
    exact List.getElem?_set_self h
  refine ⟨rfl, ?_, ?_, ?_, hati, ?_, ?_, ?_, ?_, ?_⟩
  · intro key hk
    rw [hset]
    simp [updateKey, hk]
  · rw [hset]
    simp [updateKey]
  · intro j hj
    rw [hset]
    simp only [updateKey, if_pos rfl]
    exact List.getElem?_set_ne (fun hij => hj hij.symm)
  all_goals rw [hati, hgverbose]
  all_goals rfl

/-- Witness for C9: editing post 0 of two stored twitter posts. -/
theorem c9_edit_confined_witness :
    (0 : ℕ) <
      (((fun key => if key = "twitter"
          then [(⟨"a", 1, "t1", "joy", "story", 2⟩ : PlatformPost),
                (⟨"b", 2, "t2", "awe", "list", 3⟩ : PlatformPost)]
          else []) : String → List PlatformPost) "twitter").length ∧
    (closeExpandedPosts
        ((fun key => if key = "twitter"
          then [(⟨"a", 1, "t1", "joy", "story", 2⟩ : PlatformPost),
                (⟨"b", 2, "t2", "awe", "list", 3⟩ : PlatformPost)]
          else []) : String → List PlatformPost)
        (some (Platform.twitter, 0)) "edited" (platformKey Platform.twitter))[(1 : ℕ)]? =
      some (⟨"b", 2, "t2", "awe", "list", 3⟩ : PlatformPost) := by
  have h := c9_edit_confined
    ((fun key => if key = "twitter"
      then [(⟨"a", 1, "t1", "joy", "story", 2⟩ : PlatformPost),
            (⟨"b", 2, "t2", "awe", "list", 3⟩ : PlatformPost)]
      else []) : String → List PlatformPost)
    Platform.twitter 0 "edited" (by decide)
  refine ⟨by decide, ?_⟩
  rw [h.2.2.2.1 1 (by decide)]
  decide

/-- Claim C2: when the streaming call fails to set up (rejected fetch,
non-ok status, or no body reader), the client falls back to the
blocking endpoint with the same request body, and a successful
fallback response stores the aggregated posts grouped by platform. -/
theorem c2_fallback_same_body (body : RequestBody) (selected : List Platform)
    (st : ClientState) (outcome : StreamOutcome) (data : APIResponse)
    (pp : String → List PlatformPost)
    (hfail : streamSetupFails outcome = true)
    (hs : data.success = true) (hpp : data.platform_posts = some pp) :
    (startStreamingPostGeneration body selected st outcome (.ok data)).2 =
      [NetworkCall.streamPosts body, NetworkCall.generatePosts body] ∧
    (startStreamingPostGeneration body selected st outcome (.ok data)).1.platformPosts =
      pp ∧
    (startStreamingPostGeneration body selected st outcome (.ok data)).1.contentBlocks =
      allPostContents selected pp := by
  cases outcome <;>
    simp_all [startStreamingPostGeneration, fallbackToRegularAPI, streamSetupFails]

/-- Witness for C2: a rejected streaming fetch at a concrete body. -/
theorem c2_fallback_same_body_witness :
    streamSetupFails .fetchReject = true ∧
    (startStreamingPostGeneration ⟨"txt", ["twitter"], none⟩ [Platform.twitter]
        emptyClientState .fetchReject
        (.ok ⟨true, some (fun _ => []), none⟩)).2 =
      [NetworkCall.streamPosts ⟨"txt", ["twitter"], none⟩,
       NetworkCall.generatePosts ⟨"txt", ["twitter"], none⟩] ∧
    (startStreamingPostGeneration ⟨"txt", ["twitter"], none⟩ [Platform.twitter]
        emptyClientState .fetchReject
        (.ok ⟨true, some (fun _ => []), none⟩)).1.platformPosts = fun _ => [] := by
  have h := c2_fallback_same_body ⟨"txt", ["twitter"], none⟩ [Platform.twitter]
    emptyClientState .fetchReject ⟨true, some (fun _ => []), none⟩ (fun _ => [])
    (by decide) rfl rfl
  exact ⟨by decide, h.1, h.2.1⟩

/-- Claim C8: in YouTube mode the transcript service is invoked first
and post generation second; post generation starts only when the
YouTube call succeeds with a non-empty transcript, using the
transcript as the pipeline text and the YouTube URL as
`original_url`; an invalid YouTube URL makes no call at all. -/
theorem c8_youtube_first (content : String) (selected : List Platform) (vid : String)
    (ytResp : Except Unit YoutubeResponse) (data : YoutubeResponse) (t : String)
    (outcome : StreamOutcome) (fallbackResp : Except Unit APIResponse)
    (st : ClientState) :
    ((handleStart .youtube content selected none ytResp outcome fallbackResp st).2 =
      []) ∧
    (isBlank content = false →
      ((handleStart .youtube content selected (some vid) ytResp outcome fallbackResp
          st).2).head? = some (NetworkCall.youtubeProcess content)) ∧
    (isBlank content = false → data.success = true → data.transcript = some t →
      t ≠ "" →
      (handleStart .youtube content selected (some vid) (.ok data) outcome fallbackResp
          st).2 =
        NetworkCall.youtubeProcess content ::
          NetworkCall.streamPosts (buildRequestBody selected content (some t)
            (some content)) ::
          (if streamSetupFails outcome = true then
            [NetworkCall.generatePosts (buildRequestBody selected content (some t)
              (some content))]
          else []) ∧
      (buildRequestBody selected content (some t) (some content)).text = t ∧
      (buildRequestBody selected content (some t) (some content)).original_url =
        some content) ∧
    (isBlank content = false →
      (handleStart .youtube content selected (some vid) (.error ()) outcome fallbackResp
          st).2 = [NetworkCall.youtubeProcess content]) ∧
    (isBlank content = false → data.success = false →
      (handleStart .youtube content selected (some vid) (.ok data) outcome fallbackResp
          st).2 = [NetworkCall.youtubeProcess content]) ∧
    (isBlank content = false → data.success = true →
      truthyStr data.transcript = false →
      (handleStart .youtube content selected (some vid) (.ok data) outcome fallbackResp
          st).2 = [NetworkCall.youtubeProcess content]) := by
  refine ⟨?_, ?_, ?_, ?_, ?_, ?_⟩
  · simp [handleStart]
  · intro hb
    rcases ytResp with _ | d
    · simp [handleStart, hb]
    · by_cases hs : d.success
      · by_cases ht : truthyStr d.transcript
        · simp [handleStart, hb, hs, ht]
        · simp [handleStart, hb, hs, ht]
      · simp [handleStart, hb, hs]
  · intro hb hs ht htt
    have hcne : content ≠ "" := by
      intro hc
      rw [hc] at hb
      simp [isBlank] at hb
    have htts : truthyStr (some t) = true := by
      simp [truthyStr, htt]
    refine ⟨?_, ?_, ?_⟩
    · cases outcome <;>
        simp [handleStart, hb, hs, ht, htts, startPostGeneration,
          startStreamingPostGeneration, fallbackToRegularAPI, streamSetupFails]
    · simp [buildRequestBody, jstrOr, htt]
    · simp [buildRequestBody, hcne]
  · intro hb
    simp [handleStart, hb]
  · intro hb hs
    simp [handleStart, hb, hs]
  · intro hb hs ht
    simp [handleStart, hb, hs, ht]

/-- Witness for C8: a successful YouTube call with transcript "tr". -/
theorem c8_youtube_first_witness :
    isBlank "u" = false ∧
    (handleStart .youtube "u" [Platform.twitter] (some "vid")
        (.ok ⟨true, some "tr", none⟩) .fetchReject (.error ())
        emptyClientState).2 =
      NetworkCall.youtubeProcess "u" ::
        NetworkCall.streamPosts (buildRequestBody [Platform.twitter] "u" (some "tr")
          (some "u")) ::
        [NetworkCall.generatePosts (buildRequestBody [Platform.twitter] "u" (some "tr")
          (some "u"))] ∧
    (buildRequestBody [Platform.twitter] "u" (some "tr") (some "u")).text = "tr" ∧
    (buildRequestBody [Platform.twitter] "u" (some "tr") (some "u")).original_url =
      some "u" := by
  have h := (c8_youtube_first "u" [Platform.twitter] "vid"
    (.ok ⟨true, some "tr", none⟩) ⟨true, some "tr", none⟩ "tr" .fetchReject (.error ())
    emptyClientState).2.2.1 (by decide) rfl rfl (by decide)
  refine ⟨by decide, ?_, h.2.1, h.2.2⟩
  simpa using h.1

/-! ## Line splitting lemmas for the buffering loop -/

/-- Gluing the split of two concatenated strings: the remainder of the
first is prepended to the first line of the second. -/
def nlGlue (x y : List (List Char) × List Char) : List (List Char) × List Char :=
  match y.1 with
  | [] => (x.1, x.2 ++ y.2)
  | h :: rest => (x.1 ++ (x.2 ++ h) :: rest, y.2)

lemma splitNl_append (a b : List Char) :
    splitNl (a ++ b) = nlGlue (splitNl a) (splitNl b) := by
  induction a with
  | nil =>
    rcases hb : splitNl b with ⟨lb, rb⟩
    cases lb <;> simp [splitNl, nlGlue, hb]
  | cons c a ih =>
    by_cases hc : c = '\n'
    · subst hc
      rcases hsa : splitNl a with ⟨la, ra⟩
      rcases hsb : splitNl b with ⟨lb, rb⟩
      rw [hsa, hsb] at ih
      cases lb <;>
        simp [splitNl, List.cons_append, ih, nlGlue, hsa, hsb]
    · rcases hsa : splitNl a with ⟨la, ra⟩
      rcases hsb : splitNl b with ⟨lb, rb⟩
      rw [hsa, hsb] at ih
      cases la <;> cases lb <;>
        simp [splitNl, List.cons_append, ih, nlGlue, hsa, hsb, hc]

lemma splitNl_no_newline (l : List Char) (h : '\n' ∉ l) : splitNl l = ([], l) := by
  induction l with
  | nil => rfl
  | cons c cs ih =>
    have hc : ¬c = '\n' := fun hc => h (hc ▸ List.mem_cons_self c cs)
    have hcs : '\n' ∉ cs := fun hm => h (List.mem_cons_of_mem c hm)
    simp [splitNl, hc, ih hcs]

lemma splitNl_rest_no_newline (l : List Char) : '\n' ∉ (splitNl l).2 := by
  induction l with
  | nil => simp [splitNl]
  | cons c cs ih =>
    by_cases hc : c = '\n'
    · subst hc
      simpa [splitNl] using ih
    · rcases hs : splitNl cs with ⟨ls, rs⟩
      rw [hs] at ih
      cases ls with
      | nil =>
        have he : splitNl (c :: cs) = ([], c :: rs) := by simp [splitNl, hs, hc]
        rw [he]
        simp only [List.mem_cons, not_or]
        exact ⟨fun h => hc h.symm, ih⟩
      | cons lh lt =>
        have he : splitNl (c :: cs) = ((c :: lh) :: lt, rs) := by
          simp [splitNl, hs, hc]
        rw [he]
        exact ih

lemma foldl_processChunkStep (chunks : List (List Char)) :
    ∀ st : StreamState, '\n' ∉ st.buffer →
      List.foldl processChunkStep st chunks =
        { buffer := (splitNl (st.buffer ++ chunks.flatten)).2
          dispatched := st.dispatched ++
            ((splitNl (st.buffer ++ chunks.flatten)).1).filter isFrameLine } := by
  induction chunks with
  | nil =>
    intro st hb
    rw [List.foldl_nil, List.flatten_nil, List.append_nil,
      splitNl_no_newline st.buffer hb]
    simp
  | cons c cs ih =>
    intro st hb
    rw [List.foldl_cons]
    have hb2 : '\n' ∉ (processChunkStep st c).buffer := splitNl_rest_no_newline _
    rw [ih _ hb2]
    rcases h1 : splitNl (st.buffer ++ c) with ⟨l1, r1⟩
    rcases h2 : splitNl cs.flatten with ⟨l2, r2⟩
    have hr1nn : '\n' ∉ r1 := by
      have hh := splitNl_rest_no_newline (st.buffer ++ c)
      rwa [h1] at hh
    have hfull : splitNl (st.buffer ++ (c ++ cs.flatten)) = nlGlue (l1, r1) (l2, r2) := by
      rw [← List.append_assoc, splitNl_append, h1, h2]
    have hrest : splitNl (r1 ++ cs.flatten) = nlGlue ([], r1) (l2, r2) := by
      rw [splitNl_append, splitNl_no_newline r1 hr1nn, h2]
    cases l2 with
    | nil =>
      simp [hfull, hrest, nlGlue, processChunkStep, h1, List.filter_append]
    | cons h2h h2t =>
      simp [hfull, hrest, nlGlue, processChunkStep, h1, List.filter_append]

/-- Claim C3 (counterexample to the claim as stated): for the
single-chunk stream `"foo\ndata: x"`, the dispatched line sequence is
empty — the complete line `"foo"` is not a frame line and is filtered
out rather than dispatched, and the frame `"data: x"` on the final
non-newline-terminated line stays in the buffer and is never
dispatched, although it is a complete frame line. -/
theorem c3_chunk_lines_counterexample :
    (processStream [("foo\ndata: x").toList]).dispatched = [] ∧
    (processStream [("foo\ndata: x").toList]).buffer = ("data: x").toList ∧
    isFrameLine (("data: x").toList) = true := by
  refine ⟨?_, ?_, ?_⟩ <;> decide

/-- Claim C3 (amended): the dispatched line sequence is invariant under
the partition of the stream into chunks — it is always the
newline-split of the whole stream minus the final unterminated
segment, filtered to the lines starting with `event: ` or `data: `;
the final unterminated segment is held in the buffer and is never
dispatched when the stream ends. -/
theorem c3_chunking_invariance (chunks : List (List Char)) :
    processStream chunks =
      { buffer := (splitNl chunks.flatten).2
        dispatched := ((splitNl chunks.flatten).1).filter isFrameLine } := by
  have h := foldl_processChunkStep chunks { buffer := [], dispatched := [] } (by simp)
  simpa [processStream] using h

/-! ## Progress monotonicity lemmas -/

lemma pipelineProgress_handleEventData (st : ClientState) (e : EventData) :
    (handleEventData st e).pipelineProgress =
      (progressUpdate e).getD st.pipelineProgress := by
  unfold handleEventData progressUpdate
  by_cases h1 : truthyStr e.post_content
  · simp only [h1, if_true]
    cases e.progress <;> cases e.post_progress <;> simp
  · by_cases h2 : truthyStr e.message
    · simp only [h1, h2, if_true, Bool.false_eq_true, if_false]
      cases e.progress <;> simp
    · by_cases h3 : truthyStr e.error
      · simp [h1, h2, h3]
      · by_cases h4 : (e.total_processing_time).isSome <;> simp [h1, h2, h3, h4]

lemma progTrace_head (st : ClientState) (frames : List EventData) :
    (progTrace st frames).head? = some st.pipelineProgress := by
  cases frames <;> simp [progTrace, List.scanl]

lemma chain_le_weaken_head {x y : ℚ} {l : List ℚ} (hxy : x ≤ y)
    (h : List.Chain' (· ≤ ·) (y :: l)) : List.Chain' (· ≤ ·) (x :: l) := by
  cases l with
  | nil => simp
  | cons z l =>
    rw [List.chain'_cons] at h ⊢
    exact ⟨hxy.trans h.1, h.2⟩

lemma chain_progTrace (frames : List EventData) :
    ∀ st : ClientState,
      List.Chain' (· ≤ ·) (st.pipelineProgress :: frames.filterMap progressUpdate) →
      List.Chain' (· ≤ ·) (progTrace st frames) := by
  induction frames with
  | nil =>
    intro st _
    simp [progTrace]
  | cons e fs ih =>
    intro st h
    have hexp : progTrace st (e :: fs) =
        st.pipelineProgress :: progTrace (handleEventData st e) fs := by
      simp [progTrace, List.scanl]
    rw [hexp]
    rcases hu : progressUpdate e with _ | p
    · have hprog : (handleEventData st e).pipelineProgress = st.pipelineProgress := by
        rw [pipelineProgress_handleEventData, hu]
        rfl
      have h2 : List.Chain' (· ≤ ·)
          ((handleEventData st e).pipelineProgress :: fs.filterMap progressUpdate) := by
        rw [hprog]
        simpa [List.filterMap_cons, hu] using h
      refine List.chain'_cons'.mpr ⟨?_, ih _ h2⟩
      intro y hy
      rw [progTrace_head] at hy
      have hyv : (handleEventData st e).pipelineProgress = y := by simpa using hy
      rw [← hyv, hprog]
    · have hprog : (handleEventData st e).pipelineProgress = p := by
        rw [pipelineProgress_handleEventData, hu]
        rfl
      have hfm : (e :: fs).filterMap progressUpdate =
          p :: fs.filterMap progressUpdate := by
        simp [List.filterMap_cons, hu]
      rw [hfm, List.chain'_cons] at h
      refine List.chain'_cons'.mpr ⟨?_, ih _ (by rw [hprog]; exact h.2)⟩
      intro y hy
      rw [progTrace_head] at hy
      have hyv : (handleEventData st e).pipelineProgress = y := by simpa using hy
      rw [← hyv, hprog]
      exact h.1

lemma progressUpdate_orchPostFrame (t : Topic) (p : Platform) (content : String)
    (prog : ℕ) (h : content ≠ "") :
    progressUpdate (orchPostFrame t p content prog) = some (prog : ℚ) := by
  simp [progressUpdate, orchPostFrame, truthyStr, h]

lemma progressUpdate_statusFrame (msg : String) (prog : ℕ) (h : msg ≠ "") :
    progressUpdate (statusFrame msg prog) = some (prog : ℚ) := by
  simp [progressUpdate, statusFrame, truthyStr, h]

lemma progressUpdate_completeFrame (elapsed : ℚ) :
    progressUpdate (completeFrame elapsed) = some 100 := by
  simp [progressUpdate, completeFrame, truthyStr]

lemma orchPostFrames_chain (gen : Topic → Platform → String)
    (hg : ∀ t p, gen t p ≠ "") :
    ∀ (pairs : List (Topic × Platform)) (k total : ℕ), k + pairs.length ≤ total →
      List.Chain' (· ≤ ·)
        (((25 + 75 * k / total : ℕ) : ℚ) ::
          ((orchPostFrames pairs gen k total).filterMap progressUpdate ++
            [(100 : ℚ)])) := by
  intro pairs
  induction pairs with
  | nil =>
    intro k total hk
    rw [orchPostFrames]
    simp only [List.filterMap_nil, List.nil_append]
    have h75 : 75 * k / total ≤ 75 := by
      rcases Nat.eq_zero_or_pos total with h0 | h0
      · subst h0
        simp
      · have h1 : 75 * k ≤ 75 * total := by
          have : k ≤ total := by omega
          exact Nat.mul_le_mul_left 75 this
        have h2 : 75 * k / total ≤ 75 * total / total := Nat.div_le_div_right h1
        rwa [Nat.mul_div_left 75 h0] at h2
    have hle : (25 + 75 * k / total : ℕ) ≤ 100 := by omega
    rw [List.chain'_pair]
    exact_mod_cast hle
  | cons tp rest ih =>
    intro k total hk
    obtain ⟨t, p⟩ := tp
    rw [orchPostFrames, List.filterMap_cons,
      progressUpdate_orchPostFrame t p (gen t p) _ (hg t p), List.cons_append,
      List.chain'_cons]
    constructor
    · have hmul : 75 * k ≤ 75 * (k + 1) := by omega
      have hdiv : 75 * k / total ≤ 75 * (k + 1) / total := Nat.div_le_div_right hmul
      have : (25 + 75 * k / total : ℕ) ≤ 25 + 75 * (k + 1) / total := by omega
      exact_mod_cast this
    · exact ih (k + 1) total (by simp at hk; omega)

/-- Claim C1: for a valid run, the progress values carried on the
orchestrator's emitted frames are non-decreasing and end at exactly
100, and the client's `pipelineProgress` state — updated from each
frame's `progress` field and forced to 100 on the completion frame —
never decreases across the processed frame sequence and finishes at
exactly 100.  (The server-side orchestrator is modelled from the spec;
see `orchFrames`.) -/
theorem c1_progress_monotone (topics : List Topic) (platforms : List Platform)
    (gen : Topic → Platform → String) (elapsed : ℚ) (st : ClientState)
    (hg : ∀ t p, gen t p ≠ "") :
    List.Chain' (· ≤ ·)
      ((orchFrames topics platforms gen elapsed).filterMap progressUpdate) ∧
    ((orchFrames topics platforms gen elapsed).filterMap progressUpdate).getLast? =
      some 100 ∧
    List.Chain' (· ≤ ·)
      (progTrace (streamResetState st) (orchFrames topics platforms gen elapsed)) ∧
    (List.foldl handleEventData (streamResetState st)
        (orchFrames topics platforms gen elapsed)).pipelineProgress = 100 := by
  have hframes : orchFrames topics platforms gen elapsed =
      statusFrame "Extracting topics from input text" 10 ::
        (orchPostFrames (topics.flatMap fun t => platforms.map fun p => (t, p)) gen 0
          (topics.flatMap fun t => platforms.map fun p => (t, p)).length ++
          [completeFrame elapsed]) := by
    simp [orchFrames]
  have hfm : (orchFrames topics platforms gen elapsed).filterMap progressUpdate =
      ((10 : ℕ) : ℚ) ::
        ((orchPostFrames (topics.flatMap fun t => platforms.map fun p => (t, p)) gen 0
          (topics.flatMap fun t => platforms.map fun p => (t, p)).length).filterMap
            progressUpdate ++ [(100 : ℚ)]) := by
    rw [hframes, List.filterMap_cons,
      progressUpdate_statusFrame "Extracting topics from input text" 10 (by decide),
      List.filterMap_append]
    simp [progressUpdate_completeFrame]
  have hchain25 := orchPostFrames_chain gen hg
    (topics.flatMap fun t => platforms.map fun p => (t, p)) 0
    (topics.flatMap fun t => platforms.map fun p => (t, p)).length (by omega)
  have h250 : (25 + 75 * 0 /
      (topics.flatMap fun t => platforms.map fun p => (t, p)).length : ℕ) = 25 := by
    simp
  rw [h250] at hchain25
  have hchain10 : List.Chain' (· ≤ ·)
      (((10 : ℕ) : ℚ) ::
        ((orchPostFrames (topics.flatMap fun t => platforms.map fun p => (t, p)) gen 0
          (topics.flatMap fun t => platforms.map fun p => (t, p)).length).filterMap
            progressUpdate ++ [(100 : ℚ)])) :=
    chain_le_weaken_head (by norm_num) hchain25
  refine ⟨?_, ?_, ?_, ?_⟩
  · rw [hfm]
    exact hchain10
  · rw [hfm, ← List.cons_append, List.getLast?_concat]
  · apply chain_progTrace
    have h0 : (streamResetState st).pipelineProgress = 0 := rfl
    rw [h0, hfm]
    exact List.chain'_cons.mpr ⟨by norm_num, hchain10⟩
  · rw [hframes, List.foldl_cons, List.foldl_append]
    simp only [List.foldl_cons, List.foldl_nil]
    rw [pipelineProgress_handleEventData, progressUpdate_completeFrame]
    rfl

/-- Witness for C1: a run with one topic and one platform. -/
theorem c1_progress_monotone_witness :
    List.Chain' (· ≤ ·)
      ((orchFrames [⟨1, "t", "ex"⟩] [Platform.twitter] (fun _ _ => "p!")
        2).filterMap progressUpdate) ∧
    ((orchFrames [⟨1, "t", "ex"⟩] [Platform.twitter] (fun _ _ => "p!")
        2).filterMap progressUpdate).getLast? = some 100 ∧
    List.Chain' (· ≤ ·)
      (progTrace (streamResetState emptyClientState)
        (orchFrames [⟨1, "t", "ex"⟩] [Platform.twitter] (fun _ _ => "p!") 2)) ∧
    (List.foldl handleEventData (streamResetState emptyClientState)
        (orchFrames [⟨1, "t", "ex"⟩] [Platform.twitter] (fun _ _ => "p!")
          2)).pipelineProgress = 100 :=
  c1_progress_monotone [⟨1, "t", "ex"⟩] [Platform.twitter] (fun _ _ => "p!") 2
    emptyClientState (fun _ _ => by show "p!" ≠ ""; decide)

/-! ## Topic reference invariant -/

/-- Every post stored in the client state references a topic of the
given run (its `topic_id` is the id of some extracted topic). -/
def postsRefTopics (topics : List Topic) (st : ClientState) : Prop :=
  ∀ key, ∀ post ∈ st.platformPosts key, ∃ t ∈ topics, post.topic_id = (t.id : ℚ)

/-- A frame that, if it is a post frame, carries the id of some
extracted topic (non-zero, so the client's `|| 0` default keeps it). -/
def frameRefTopics (topics : List Topic) (e : EventData) : Prop :=
  truthyStr e.post_content = true →
    ∃ t ∈ topics, t.id ≠ 0 ∧ e.topic_id = some (t.id : ℚ)

lemma handleEventData_platformPosts_post (st : ClientState) (e : EventData)
    (h1 : truthyStr e.post_content = true) :
    (handleEventData st e).platformPosts =
      updateKey st.platformPosts (postPlatformKey e)
        (st.platformPosts (postPlatformKey e) ++ [newPostOf e]) := by
  unfold handleEventData
  rw [if_pos h1]
  cases e.progress <;> cases e.post_progress <;> simp

lemma handleEventData_platformPosts_other (st : ClientState) (e : EventData)
    (h1 : truthyStr e.post_content = false) :
    (handleEventData st e).platformPosts = st.platformPosts := by
  unfold handleEventData
  rw [h1]
  simp only [Bool.false_eq_true, if_false]
  by_cases h2 : truthyStr e.message
  · rw [if_pos h2]
    cases e.progress <;> simp
  · rw [if_neg h2]
    by_cases h3 : truthyStr e.error
    · simp [h3]
    · by_cases h4 : (e.total_processing_time).isSome <;> simp [h3, h4]

lemma handleEventData_preserves_ref (topics : List Topic) (st : ClientState)
    (e : EventData) (hf : frameRefTopics topics e) (hs : postsRefTopics topics st) :
    postsRefTopics topics (handleEventData st e) := by
  by_cases h1 : truthyStr e.post_content
  · obtain ⟨t, ht, htid, hte⟩ := hf h1
    intro key post hpost
    rw [handleEventData_platformPosts_post st e h1] at hpost
    unfold updateKey at hpost
    by_cases hkey : key = postPlatformKey e
    · rw [if_pos hkey] at hpost
      rcases List.mem_append.mp hpost with hmem | hmem
      · exact hs _ post hmem
      · have hpe : post = newPostOf e := by simpa using hmem
        refine ⟨t, ht, ?_⟩
        have hne : (t.id : ℚ) ≠ 0 := Nat.cast_ne_zero.mpr htid
        rw [hpe]
        simp [newPostOf, hte, jnumOr, hne]
    · rw [if_neg hkey] at hpost
      exact hs key post hpost
  · intro key post hpost
    rw [handleEventData_platformPosts_other st e (by simpa using h1)] at hpost
    exact hs key post hpost

lemma foldl_preserves_ref (topics : List Topic) (frames : List EventData) :
    ∀ st, (∀ e ∈ frames, frameRefTopics topics e) → postsRefTopics topics st →
      postsRefTopics topics (List.foldl handleEventData st frames) := by
  induction frames with
  | nil => exact fun st _ h => h
  | cons e fs ih =>
    intro st hf hs
    rw [List.foldl_cons]
    exact ih _ (fun x hx => hf x (List.mem_cons_of_mem e hx))
      (handleEventData_preserves_ref topics st e (hf e (List.mem_cons_self e fs)) hs)

lemma orchPostFrames_ref (topics : List Topic) (gen : Topic → Platform → String)
    (hid : ∀ t ∈ topics, t.id ≠ 0) :
    ∀ (pairs : List (Topic × Platform)) (k total : ℕ),
      (∀ tp ∈ pairs, tp.1 ∈ topics) →
      ∀ e ∈ orchPostFrames pairs gen k total, frameRefTopics topics e := by
  intro pairs
  induction pairs with
  | nil =>
    intro k total _ e he
    simp [orchPostFrames] at he
  | cons tp rest ih =>
    intro k total hmem e he
    obtain ⟨t, p⟩ := tp
    rw [orchPostFrames] at he
    rcases List.mem_cons.mp he with rfl | he2
    · intro _
      have htmem : t ∈ topics := hmem (t, p) (List.mem_cons_self _ _)
      exact ⟨t, htmem, hid t htmem, by simp [orchPostFrame]⟩
    · exact ih (k + 1) total (fun x hx => hmem x (List.mem_cons_of_mem _ hx)) e he2

lemma assignTopicIds_id_pos (raw : List (String × String)) :
    ∀ t ∈ assignTopicIds raw, 1 ≤ t.id := by
  intro t ht
  simp only [assignTopicIds, List.mem_map] at ht
  obtain ⟨kr, _, hkr⟩ := ht
  rw [← hkr]
  show 1 ≤ kr.1 + 1
  omega

/-- Claim C5: with topic IDs assigned 1-based by extraction (modelled
from the spec, `assignTopicIds`), every post the client stores from an
orchestrator run references an extracted topic — no stored post
references a topic that was not extracted. -/
theorem c5_topic_ids_referenced (raw : List (String × String))
    (platforms : List Platform) (gen : Topic → Platform → String) (elapsed : ℚ)
    (st : ClientState) :
    (∀ t ∈ assignTopicIds raw, 1 ≤ t.id) ∧
    postsRefTopics (assignTopicIds raw)
      (List.foldl handleEventData (streamResetState st)
        (orchFrames (assignTopicIds raw) platforms gen elapsed)) := by
  refine ⟨assignTopicIds_id_pos raw, ?_⟩
  apply foldl_preserves_ref
  · intro e he
    rw [show orchFrames (assignTopicIds raw) platforms gen elapsed =
        statusFrame "Extracting topics from input text" 10 ::
          (orchPostFrames ((assignTopicIds raw).flatMap fun t =>
              platforms.map fun p => (t, p)) gen 0
            ((assignTopicIds raw).flatMap fun t =>
              platforms.map fun p => (t, p)).length ++
            [completeFrame elapsed]) from by simp [orchFrames]] at he
    rcases List.mem_cons.mp he with rfl | he2
    · intro habs
      simp [statusFrame, truthyStr] at habs
    · rcases List.mem_append.mp he2 with he3 | he3
      · refine orchPostFrames_ref (assignTopicIds raw) gen ?_ _ _ _ ?_ e he3
        · intro t ht
          have := assignTopicIds_id_pos raw t ht
          omega
        · intro tp htp
          rw [List.mem_flatMap] at htp
          obtain ⟨t, ht, htp2⟩ := htp
          rw [List.mem_map] at htp2
          obtain ⟨p, _, hp⟩ := htp2
          rw [← hp]
          exact ht
      · have : e = completeFrame elapsed := by simpa using he3
        rw [this]
        intro habs
        simp [completeFrame, truthyStr] at habs
  · intro key post hpost
    simp [streamResetState] at hpost

/-- Witness for C5: one extracted topic, one platform. -/
theorem c5_topic_ids_referenced_witness :
    (∀ t ∈ assignTopicIds [("t", "ex")], 1 ≤ t.id) ∧
    postsRefTopics (assignTopicIds [("t", "ex")])
      (List.foldl handleEventData (streamResetState emptyClientState)
        (orchFrames (assignTopicIds [("t", "ex")]) [Platform.twitter]
          (fun _ _ => "p!") 2)) :=
  c5_topic_ids_referenced [("t", "ex")] [Platform.twitter] (fun _ _ => "p!") 2
    emptyClientState

end Chameleon
